import Mathlib

/-!
Verification of the sccache compiler-cache wrapper (src/sccache.py).

The Python source is shallowly embedded below. External effects (filesystem
lookups, subprocess invocations, the HTTP blob store, environment variables)
are passed in explicitly through an `Env` record of oracles; `main` returns
the exit status together with the ordered trace of external actions it
performed, and Python exceptions escaping `main` are modelled with `Except`.
-/

deriving instance DecidableEq for Except

namespace Sccache

/-- Python exceptions that can escape the functions under study. -/
inductive PyExc
  | stopIteration
  | nameError
  | assertionError
  | indexError
deriving DecidableEq

/-- FILE_TYPES (src/sccache.py lines 71-76), verbatim: note the source's
value for ".cxx" reads "c++-cpp-outout". -/
def FILE_TYPES : List (String × String) :=
  [(".c", "cpp-output"),
   (".cc", "c++-cpp-output"),
   (".cpp", "c++-cpp-output"),
   (".cxx", "c++-cpp-outout")]

/-- Bytes of a Python str (ASCII range in all uses here). -/
def strBytes (s : String) : List Nat :=
  s.data.map Char.toNat

/-- Python truthiness of an optional string (None and '' are falsy). -/
def pyFalsy : Option String → Bool
  | none => true
  | some s => s.isEmpty

/-- Python `t or o` where `t` is an optional string and `o` a string. -/
def pyOrStr (t : Option String) (o : String) : String :=
  match t with
  | none => o
  | some s => if s.isEmpty then o else s

/-- Python `arg.startswith('-')`. -/
def startsDash (s : String) : Bool :=
  match s.data with
  | [] => false
  | c :: _ => c = '-'

/-- Characters after the last '/' (the basename step of os.path.splitext). -/
def afterLastSlash (l : List Char) : List Char :=
  (l.reverse.takeWhile (fun c => c ≠ '/')).reverse

/-- os.path.splitext(p)[1] for POSIX paths: the extension starts at the last
dot of the basename, provided some earlier character of the basename is not a
dot (so ".c" has no extension while "a.c" has ".c"). -/
def splitextExt (p : String) : String :=
  let base := afterLastSlash p.data
  let rev := base.reverse
  match rev.dropWhile (fun c => c ≠ '.') with
  | [] => ""
  | _ :: before =>
    if before.any (fun c => c ≠ '.') then
      String.mk ('.' :: (rev.takeWhile (fun c => c ≠ '.')).reverse)
    else ""

/-- The fixed set of flags that consume the following token into the reduced
argument list (src/sccache.py lines 252-258). -/
def TWO_TOKEN_ARGS : List String :=
  ["--param", "-A", "-D", "-F", "-G", "-I", "-L", "-MF",
   "-MQ", "-U", "-V", "-Xassembler", "-Xlinker",
   "-Xpreprocessor", "-aux-info", "-b", "-idirafter",
   "-iframework", "-imacros", "-imultilib", "-include",
   "-install_name", "-iprefix", "-iquote", "-isysroot",
   "-isystem", "-iwithprefix", "-iwithprefixbefore",
   "-u"]

/-- State accumulated by parse_arguments' scan over the argument list. -/
structure ScanState where
  reducedArgs : List String
  input : List String
  output : Option String
  target : Option String
  needExplicitTarget : Bool
  compilation : Bool
deriving DecidableEq

def initScan : ScanState :=
  { reducedArgs := [], input := [], output := none, target := none,
    needExplicitTarget := false, compilation := false }

/-- Outcome of the scan: `stop` models a StopIteration raised by
`iter_args.next()` inside the loop body (uncaught in Python 2, it escapes
parse_arguments); `profileReject` models the early `return None` on
`-fprofile-use`. -/
inductive ScanOut
  | stop
  | profileReject
  | done (st : ScanState)
deriving DecidableEq

/-- The argument scan of parse_arguments (src/sccache.py lines 246-271). -/
def scanArgs : List String → ScanState → ScanOut
  | [], st => .done st
  | arg :: rest, st =>
    if arg = "-c" then
      scanArgs rest { st with compilation := true }
    else if arg = "-o" then
      match rest with
      | [] => .stop
      | v :: rest2 => scanArgs rest2 { st with output := some v }
    else if arg ∈ TWO_TOKEN_ARGS then
      match rest with
      | [] => .stop
      | v :: rest2 =>
        scanArgs rest2 { st with reducedArgs := st.reducedArgs ++ [arg, v] }
    else if arg = "-MT" then
      match rest with
      | [] => .stop
      | v :: rest2 => scanArgs rest2 { st with target := some v }
    else if arg = "-fprofile-use" then
      .profileReject
    else
      let st' := if arg ∈ ["-M", "-MM", "-MD", "-MMD"]
                 then { st with needExplicitTarget := true } else st
      if startsDash arg ∧ arg.data.length ≠ 1 then
        scanArgs rest { st' with reducedArgs := st'.reducedArgs ++ [arg] }
      else
        scanArgs rest { st' with input := st'.input ++ [arg] }

/-- The classified invocation returned by parse_arguments
(the tuple of src/sccache.py line 282). -/
structure Invocation where
  program : String
  input : String
  fileType : String
  output : String
  args : List String
  mt : List String
  reducedArgs : List String
deriving DecidableEq

/-- parse_arguments (src/sccache.py lines 232-282). `resolve` abstracts the
`os.path.exists` / `which.which` program lookup: `none` models a whichError. -/
def parse_arguments (resolve : String → Option String) (command : List String) :
    Except PyExc (Option Invocation) :=
  match command with
  | [] => .error .indexError
  | prog :: args =>
    match resolve prog with
    | none => .ok none
    | some program =>
      match scanArgs args initScan with
      | .stop => .error .stopIteration
      | .profileReject => .ok none
      | .done st =>
        match st.input with
        | [inp] =>
          if st.compilation = false ∨ pyFalsy st.output ∨ inp = "-" then
            .ok none
          else
            match List.lookup (splitextExt inp) FILE_TYPES with
            | none => .ok none
            | some ft =>
              let mt := if st.needExplicitTarget
                        then ["-MT", pyOrStr st.target (st.output.getD "")]
                        else []
              .ok (some { program := program, input := inp, fileType := ft,
                          output := st.output.getD "", args := args,
                          mt := mt, reducedArgs := st.reducedArgs })
        | _ => .ok none

/-- The byte string fed to the SHA-1 digest by hash_key (src/sccache.py
lines 285-292): mtime, size, program path, then `' '.join('args')` — the
source joins the characters of the literal string 'args', not the argument
list — then the preprocessed bytes. -/
def hashKeyMessage (mtimeS sizeS program : String) (args : List String)
    (preprocessed : List Nat) : List Nat :=
  strBytes mtimeS ++ strBytes sizeS ++ strBytes program ++
    strBytes (String.intercalate " " ((String.data "args").map
      (fun c => String.mk [c]))) ++ preprocessed

/-- hash_key (src/sccache.py lines 285-294). The file state of `program`
(str(os.path.getmtime), str(os.path.getsize)) is passed explicitly, and the
SHA-1 hex digest function is passed as `sha1hex`. The key is
digest[0]/digest[1]/digest[2]/digest. -/
def hash_key (sha1hex : List Nat → String) (mtimeS sizeS program : String)
    (args : List String) (preprocessed : List Nat) : String :=
  let digest := sha1hex (hashKeyMessage mtimeS sizeS program args preprocessed)
  digest.take 1 ++ "/" ++ (digest.drop 1).take 1 ++ "/" ++
    (digest.drop 2).take 1 ++ "/" ++ digest

/-- Modelled from the spec: the compression codec used by CacheData. The
source calls Python's gzip module, which is not part of src/; the spec only
requires a streaming compression that round-trips losslessly, so it is
modelled as a header-prefix codec with that property (a gzip stream is never
empty, which the 2-byte magic prefix also reflects). -/
def gzipCompress (b : List Nat) : List Nat :=
  31 :: 139 :: b

/-- Modelled from the spec: inverse of `gzipCompress`. -/
def gzipDecompress (b : List Nat) : List Nat :=
  b.drop 2

/-- Python truthiness of an optional byte string. -/
def pyBytesTruthy : Option (List Nat) → Bool
  | none => false
  | some l => !l.isEmpty

/-- CacheData holds either the compressed transport bytes or the raw object
bytes (src/sccache.py lines 196-229). -/
structure CacheData where
  _data : Option (List Nat)
  _obj : Option (List Nat)
deriving DecidableEq

/-- CacheData.__init__ with its `assert bool(data) != bool(obj)`
(src/sccache.py lines 197-199). -/
def CacheData.init (data obj : Option (List Nat)) : Except PyExc CacheData :=
  if pyBytesTruthy data ≠ pyBytesTruthy obj then
    .ok { _data := data, _obj := obj }
  else
    .error .assertionError

/-- CacheData.data: returns the transport bytes, compressing the raw object
when no transport bytes are present (src/sccache.py lines 214-224). -/
def CacheData.data (c : CacheData) : List Nat :=
  if pyBytesTruthy c._data then c._data.getD []
  else gzipCompress (c._obj.getD [])

/-- CacheData.dump: the bytes written to the output file — the raw object if
present, otherwise the decompressed transport bytes (src/sccache.py
lines 202-212). -/
def CacheData.dump (c : CacheData) : List Nat :=
  if pyBytesTruthy c._obj then c._obj.getD []
  else gzipDecompress (c._data.getD [])

/-- Bucket.get (src/sccache.py lines 154-167): None when no bucket name is
configured, on any network error, and on an empty body; otherwise the
compressed bytes. `getData` abstracts the urlopen result. -/
def bucketGet (name : String) (getData : String → Option (List Nat))
    (key : String) : Option (List Nat) :=
  if name = "" then none
  else
    match getData key with
    | none => none
    | some d => if d = [] then none else some d

/-- Bucket.put (src/sccache.py lines 169-185): raises when no bucket name is
configured ('No bucket name'); otherwise defers to the network, abstracted by
`netPut`. -/
def bucketPut (name : String) (netPut : String → List Nat → Except Int Unit)
    (key : String) (d : List Nat) : Except Int Unit :=
  if name = "" then .error (-2)
  else netPut key d

/-- Which diagnostic line the background store worker writes. -/
inductive StoreDiag
  | cached
  | failure
deriving DecidableEq

/-- Events of the run trace: every external action main performs. -/
inductive Event
  | execOrig (cmd : List String)
  | preprocess (argv : List String)
  | hashKey (key : String)
  | lookup (key : String)
  | hit (key : String)
  | dump (path : String) (bytes : List Nat)
  | compile (argv : List String)
  | spawnStore (path key : String) (diag : StoreDiag)
deriving DecidableEq

/-- The oracles main interacts with: program resolution, the passthrough
subprocess's exit code, the preprocessor invocation, the SCCACHE_RECACHE and
SCCACHE_BUCKET environment, the store's network, the compile invocation, the
filesystem, the program's file state and the SHA-1 digest. -/
structure Env where
  resolve : String → Option String
  callRet : Int
  ppResult : List String → Except Int (List Nat)
  recache : Bool
  bucketName : String
  getData : String → Option (List Nat)
  compileRet : List String → List Nat → Int
  outputExists : String → Bool
  mtimeStr : String → String
  sizeStr : String → String
  sha1hex : List Nat → String
  fileBytes : String → List Nat
  netPut : String → List Nat → Except Int Unit

/-- Argument vector of the preprocessing invocation
(src/sccache.py lines 348-349). -/
def ppArgv (inv : Invocation) : List String :=
  [inv.program, "-E", inv.input] ++ inv.mt ++ inv.reducedArgs

/-- Argument vector of the final compile invocation
(src/sccache.py lines 372-373). -/
def compileArgv (inv : Invocation) : List String :=
  [inv.program, "-c", "-x", inv.fileType, "-", "-o", inv.output] ++
    inv.reducedArgs

/-- The do_store body run by the detached worker (src/sccache.py
lines 298-312): it reads the output file, uploads its compressed form and
writes one of two diagnostic lines; every failure is caught there. -/
def do_store (env : Env) (path key : String) : StoreDiag :=
  let cache : CacheData := { _data := none, _obj := some (env.fileBytes path) }
  match bucketPut env.bucketName env.netPut key cache.data with
  | .ok _ => .cached
  | .error _ => .failure

/-- The tail of main from the compile step on (src/sccache.py lines 371-386).
`key` is `none` when the Python variable `key` was never bound; using it at
the cache_store call then raises NameError. -/
def mainCompile (env : Env) (inv : Invocation) (preprocessed : List Nat)
    (key : Option String) (ev : List Event) : List Event × Except PyExc Int :=
  let ret := env.compileRet (compileArgv inv) preprocessed
  let ev' := ev ++ [.compile (compileArgv inv)]
  if ret ≠ 0 ∨ env.outputExists inv.output = false then
    (ev', .ok ret)
  else
    match key with
    | none => (ev', .error .nameError)
    | some k =>
      (ev' ++ [.spawnStore inv.output k (do_store env inv.output k)], .ok 0)

/-- main after a successful preprocessing step (src/sccache.py
lines 354-386): hash and lookup happen only for truthy preprocessed bytes;
lookup is skipped under SCCACHE_RECACHE; a hit dumps the decompressed bytes
and returns 0. -/
def mainAfterPp (env : Env) (inv : Invocation) (preprocessed : List Nat) :
    List Event × Except PyExc Int :=
  let ev0 : List Event := [.preprocess (ppArgv inv)]
  if preprocessed = [] then
    mainCompile env inv preprocessed none ev0
  else
    let key := hash_key env.sha1hex (env.mtimeStr inv.program)
      (env.sizeStr inv.program) inv.program inv.args preprocessed
    if env.recache = false then
      match bucketGet env.bucketName env.getData key with
      | some d =>
        (ev0 ++ [.hashKey key, .lookup key, .hit key,
                 .dump inv.output (gzipDecompress d)], .ok 0)
      | none =>
        mainCompile env inv preprocessed (some key)
          (ev0 ++ [.hashKey key, .lookup key])
    else
      mainCompile env inv preprocessed (some key) (ev0 ++ [.hashKey key])

/-- main (src/sccache.py lines 333-386). -/
def main (env : Env) (command : List String) :
    List Event × Except PyExc Int :=
  match command with
  | [] => ([], .ok 0)
  | prog :: args =>
    match parse_arguments env.resolve (prog :: args) with
    | .error e => ([], .error e)
    | .ok none => ([.execOrig (prog :: args)], .ok env.callRet)
    | .ok (some inv) =>
      match env.ppResult (ppArgv inv) with
      | .error ret => ([.preprocess (ppArgv inv)], .ok ret)
      | .ok preprocessed => mainAfterPp env inv preprocessed

/-- Test fixture: a program lookup in which every program exists at its own
path. -/
def resolveId : String → Option String := fun s => some s

/-- Test fixture: a digest function returning a fixed 40-character hex
string. -/
def sha1Const : List Nat → String :=
  fun _ => "0123456789abcdef0123456789abcdef01234567"

/-- Test fixture: a baseline environment (no bucket configured, preprocessor
produces two bytes, compiler succeeds and produces the output file). -/
def baseEnv : Env :=
  { resolve := resolveId
    callRet := 7
    ppResult := fun _ => .ok [104, 105]
    recache := false
    bucketName := ""
    getData := fun _ => none
    compileRet := fun _ _ => 0
    outputExists := fun _ => true
    mtimeStr := fun _ => "1000.5"
    sizeStr := fun _ => "4242"
    sha1hex := sha1Const
    fileBytes := fun _ => [1, 2, 3]
    netPut := fun _ _ => .ok () }

/-- Test fixture: a configured bucket whose lookup always returns a cached
object. -/
def envHit : Env :=
  { baseEnv with bucketName := "buck", getData := fun _ => some [9, 8, 7] }

/-- Test fixture: a configured bucket whose lookup misses and whose compile
step fails. -/
def envMissFail : Env :=
  { baseEnv with bucketName := "buck", compileRet := fun _ _ => 1 }

/-- Test fixture: preprocessing succeeds with empty output. -/
def envEmptyPp : Env :=
  { baseEnv with ppResult := fun _ => .ok [] }

/-- Test fixture: the invocation classified from cc -c a.c -o a.o. -/
def invA : Invocation :=
  { program := "cc", input := "a.c", fileType := "cpp-output",
    output := "a.o", args := ["-c", "a.c", "-o", "a.o"],
    mt := [], reducedArgs := [] }

/-- Test fixture: the invocation classified from cc -c b.c -o b.o. -/
def invB : Invocation :=
  { program := "cc", input := "b.c", fileType := "cpp-output",
    output := "b.o", args := ["-c", "b.c", "-o", "b.o"],
    mt := [], reducedArgs := [] }

/-- Test fixture: the invocation classified from cc -M a.c -c -o a.o,
carrying the synthesized -MT pair. -/
def invMT : Invocation :=
  { program := "cc", input := "a.c", fileType := "cpp-output",
    output := "a.o", args := ["-M", "a.c", "-c", "-o", "a.o"],
    mt := ["-MT", "a.o"], reducedArgs := ["-M"] }

/-- The flags whose scan branch consumes the following token. -/
def VALUE_CONSUMING : List String :=
  "-o" :: "-MT" :: TWO_TOKEN_ARGS

lemma scanArgs_append (args : List String) (st : ScanState) :
    ∀ st' ys, scanArgs args st = .done st' →
      scanArgs (args ++ ys) st = scanArgs ys st' := by
  induction args, st using scanArgs.induct with
  | case1 st =>
      intro st' ys h
      rw [scanArgs.eq_def] at h
      simp only [ScanOut.done.injEq] at h
      subst h
      simp
  | case2 rest st ih =>
      intro st' ys h
      rw [scanArgs.eq_def] at h
      simp only [List.cons_append]
      rw [scanArgs.eq_def]
      simp_all
  | case3 st h1 =>
      intro st' ys h
      rw [scanArgs.eq_def] at h
      simp_all
  | case4 st v rest2 h1 ih =>
      intro st' ys h
      rw [scanArgs.eq_def] at h
      simp only [List.cons_append]
      rw [scanArgs.eq_def]
      simp_all
  | case5 arg st h1 h2 h3 =>
      intro st' ys h
      rw [scanArgs.eq_def] at h
      simp_all
  | case6 arg st h1 h2 h3 v rest2 ih =>
      intro st' ys h
      rw [scanArgs.eq_def] at h
      simp only [List.cons_append]
      rw [scanArgs.eq_def]
      simp_all
  | case7 st h1 h2 h3 =>
      intro st' ys h
      rw [scanArgs.eq_def] at h
      simp_all
  | case8 st v rest2 h1 h2 h3 ih =>
      intro st' ys h
      rw [scanArgs.eq_def] at h
      simp only [List.cons_append]
      rw [scanArgs.eq_def]
      simp_all
  | case9 rest st h1 h2 h3 h4 =>
      intro st' ys h
      rw [scanArgs.eq_def] at h
      simp_all
  | case10 arg rest st h1 h2 h3 h4 h5 stl hcond ih =>
      intro st' ys h
      rw [scanArgs.eq_def] at h
      simp only [if_neg h1, if_neg h2, if_neg h3, if_neg h4, if_neg h5,
        if_pos hcond] at h
      simp only [List.cons_append]
      rw [scanArgs.eq_def]
      simp only [if_neg h1, if_neg h2, if_neg h3, if_neg h4, if_neg h5,
        if_pos hcond]
      exact ih st' ys h
  | case11 arg rest st h1 h2 h3 h4 h5 stl hcond ih =>
      intro st' ys h
      rw [scanArgs.eq_def] at h
      simp only [if_neg h1, if_neg h2, if_neg h3, if_neg h4, if_neg h5,
        if_neg hcond] at h
      simp only [List.cons_append]
      rw [scanArgs.eq_def]
      simp only [if_neg h1, if_neg h2, if_neg h3, if_neg h4, if_neg h5,
        if_neg hcond]
      exact ih st' ys h

lemma scan_no_c (args : List String) (st : ScanState) :
    ∀ st', scanArgs args st = .done st' → "-c" ∉ args →
      st'.compilation = st.compilation := by
  induction args, st using scanArgs.induct with
  | case1 st =>
      intro st' h hmem
      rw [scanArgs.eq_def] at h
      simp only [ScanOut.done.injEq] at h
      subst h
      rfl
  | case2 rest st ih =>
      intro st' h hmem
      simp at hmem
  | case3 st h1 =>
      intro st' h hmem
      rw [scanArgs.eq_def] at h
      simp_all
  | case4 st v rest2 h1 ih =>
      intro st' h hmem
      rw [scanArgs.eq_def] at h
      simp only [List.mem_cons, not_or] at hmem
      simp only [if_neg h1, if_pos rfl] at h
      have := ih st' h hmem.2.2
      simpa using this
  | case5 arg st h1 h2 h3 =>
      intro st' h hmem
      rw [scanArgs.eq_def] at h
      simp_all
  | case6 arg st h1 h2 h3 v rest2 ih =>
      intro st' h hmem
      rw [scanArgs.eq_def] at h
      simp only [List.mem_cons, not_or] at hmem
      simp only [if_neg h1, if_neg h2, if_pos h3] at h
      have := ih st' h hmem.2.2
      simpa using this
  | case7 st h1 h2 h3 =>
      intro st' h hmem
      rw [scanArgs.eq_def] at h
      simp_all
  | case8 st v rest2 h1 h2 h3 ih =>
      intro st' h hmem
      rw [scanArgs.eq_def] at h
      simp only [List.mem_cons, not_or] at hmem
      simp only [if_neg h1, if_neg h2, if_neg h3, if_pos rfl] at h
      have := ih st' h hmem.2.2
      simpa using this
  | case9 rest st h1 h2 h3 h4 =>
      intro st' h hmem
      rw [scanArgs.eq_def] at h
      simp_all
  | case10 arg rest st h1 h2 h3 h4 h5 stl hcond ih =>
      intro st' h hmem
      rw [scanArgs.eq_def] at h
      simp only [List.mem_cons, not_or] at hmem
      simp only [if_neg h1, if_neg h2, if_neg h3, if_neg h4, if_neg h5,
        if_pos hcond] at h
      have hco := ih st' h hmem.2
      rw [hco]
      unfold stl
      by_cases hm : arg ∈ ["-M", "-MM", "-MD", "-MMD"] <;> simp [hm]
  | case11 arg rest st h1 h2 h3 h4 h5 stl hcond ih =>
      intro st' h hmem
      rw [scanArgs.eq_def] at h
      simp only [List.mem_cons, not_or] at hmem
      simp only [if_neg h1, if_neg h2, if_neg h3, if_neg h4, if_neg h5,
        if_neg hcond] at h
      have hco := ih st' h hmem.2
      rw [hco]
      unfold stl
      by_cases hm : arg ∈ ["-M", "-MM", "-MD", "-MMD"] <;> simp [hm]

lemma scan_no_o (args : List String) (st : ScanState) :
    ∀ st', scanArgs args st = .done st' → "-o" ∉ args →
      st'.output = st.output := by
  induction args, st using scanArgs.induct with
  | case1 st =>
      intro st' h hmem
      rw [scanArgs.eq_def] at h
      simp only [ScanOut.done.injEq] at h
      subst h
      rfl
  | case2 rest st ih =>
      intro st' h hmem
      rw [scanArgs.eq_def] at h
      simp only [List.mem_cons, not_or] at hmem
      simp only [if_pos rfl] at h
      have := ih st' h hmem.2
      simpa using this
  | case3 st h1 =>
      intro st' h hmem
      simp at hmem
  | case4 st v rest2 h1 ih =>
      intro st' h hmem
      simp at hmem
  | case5 arg st h1 h2 h3 =>
      intro st' h hmem
      rw [scanArgs.eq_def] at h
      simp_all
  | case6 arg st h1 h2 h3 v rest2 ih =>
      intro st' h hmem
      rw [scanArgs.eq_def] at h
      simp only [List.mem_cons, not_or] at hmem
      simp only [if_neg h1, if_neg h2, if_pos h3] at h
      have := ih st' h hmem.2.2
      simpa using this
  | case7 st h1 h2 h3 =>
      intro st' h hmem
      rw [scanArgs.eq_def] at h
      simp_all
  | case8 st v rest2 h1 h2 h3 ih =>
      intro st' h hmem
      rw [scanArgs.eq_def] at h
      simp only [List.mem_cons, not_or] at hmem
      simp only [if_neg h1, if_neg h2, if_neg h3, if_pos rfl] at h
      have := ih st' h hmem.2.2
      simpa using this
  | case9 rest st h1 h2 h3 h4 =>
      intro st' h hmem
      rw [scanArgs.eq_def] at h
      simp_all
  | case10 arg rest st h1 h2 h3 h4 h5 stl hcond ih =>
      intro st' h hmem
      rw [scanArgs.eq_def] at h
      simp only [List.mem_cons, not_or] at hmem
      simp only [if_neg h1, if_neg h2, if_neg h3, if_neg h4, if_neg h5,
        if_pos hcond] at h
      have hco := ih st' h hmem.2
      rw [hco]
      unfold stl
      by_cases hm : arg ∈ ["-M", "-MM", "-MD", "-MMD"] <;> simp [hm]
  | case11 arg rest st h1 h2 h3 h4 h5 stl hcond ih =>
      intro st' h hmem
      rw [scanArgs.eq_def] at h
      simp only [List.mem_cons, not_or] at hmem
      simp only [if_neg h1, if_neg h2, if_neg h3, if_neg h4, if_neg h5,
        if_neg hcond] at h
      have hco := ih st' h hmem.2
      rw [hco]
      unfold stl
      by_cases hm : arg ∈ ["-M", "-MM", "-MD", "-MMD"] <;> simp [hm]

/-- C1: the digest input of hash_key does not depend on the argument list:
the source hashes `' '.join('args')` — the characters of the literal string
'args' — instead of a representation of the actual arguments, so two
invocations that agree on program file state and preprocessed bytes but
differ in their argument list feed identical data into the digest. -/
theorem hash_key_ignores_args :
    hashKeyMessage "1381702912.0" "19" "/usr/bin/cc"
      ["-c", "a.c", "-o", "a.o"] [105, 110, 116] =
    hashKeyMessage "1381702912.0" "19" "/usr/bin/cc"
      ["-c", "a.c", "-o", "a.o", "-O2"] [105, 110, 116] ∧
    (["-c", "a.c", "-o", "a.o"] : List String) ≠
      ["-c", "a.c", "-o", "a.o", "-O2"] ∧
    ∀ (m s p : String) (a₁ a₂ : List String) (pp : List Nat),
      hashKeyMessage m s p a₁ pp = hashKeyMessage m s p a₂ pp :=
  ⟨rfl, by decide, fun _ _ _ _ _ _ => rfl⟩

/-- C6: fingerprint derivation is deterministic — two evaluations of
hash_key on the same digest function, program file state, program path,
argument list and preprocessed bytes yield the identical key string. -/
theorem hash_key_deterministic (f : List Nat → String)
    (m s p m' s' p' : String) (a a' : List String) (pp pp' : List Nat)
    (hm : m = m') (hs : s = s') (hp : p = p') (ha : a = a')
    (hpp : pp = pp') :
    hash_key f m s p a pp = hash_key f m' s' p' a' pp' := by
  subst hm hs hp ha hpp
  rfl

/-- Witness for `hash_key_deterministic` at a concrete input. -/
theorem hash_key_deterministic_witness :
    hash_key sha1Const "1000.5" "4242" "/usr/bin/cc" ["-c"] [1, 2] =
    hash_key sha1Const "1000.5" "4242" "/usr/bin/cc" ["-c"] [1, 2] :=
  hash_key_deterministic sha1Const "1000.5" "4242" "/usr/bin/cc" "1000.5"
    "4242" "/usr/bin/cc" ["-c"] ["-c"] [1, 2] [1, 2] rfl rfl rfl rfl rfl

/-- C7 counterexample: the round-trip is not total on all byte strings — for
the empty byte string, constructing the CacheData object already fails the
constructor's assertion (bool(data) != bool(obj) is False when obj = b''). -/
theorem cachedata_roundtrip_cex :
    CacheData.init none (some ([] : List Nat)) = .error .assertionError := by
  decide

/-- C7 (amended): for every nonempty byte string b, compressing b into the
transport representation (CacheData.data of an object built from b) and then
decompressing it (CacheData.dump of a CacheData holding that compressed
data) reproduces exactly b. -/
theorem cachedata_roundtrip (b : List Nat) (hb : b ≠ []) :
    ∃ c₁ c₂ : CacheData,
      CacheData.init none (some b) = .ok c₁ ∧
      CacheData.init (some c₁.data) none = .ok c₂ ∧
      c₂.dump = b := by
  refine ⟨⟨none, some b⟩, ⟨some (gzipCompress b), none⟩, ?_, ?_, ?_⟩
  · simp [CacheData.init, pyBytesTruthy, hb]
  · simp [CacheData.init, CacheData.data, pyBytesTruthy, gzipCompress]
  · simp [CacheData.dump, pyBytesTruthy, gzipCompress, gzipDecompress]

/-- Witness for `cachedata_roundtrip` at the byte string [42]. -/
theorem cachedata_roundtrip_witness :
    ([42] : List Nat) ≠ [] ∧
    ∃ c₁ c₂ : CacheData,
      CacheData.init none (some [42]) = .ok c₁ ∧
      CacheData.init (some c₁.data) none = .ok c₂ ∧
      c₂.dump = [42] :=
  ⟨by decide, cachedata_roundtrip [42] (by decide)⟩

/-- C8: FILE_TYPES maps '.cxx' to the misspelled tag 'c++-cpp-outout',
which differs from the tag 'c++-cpp-output' it maps '.cc' (and '.cpp') to,
contradicting the spec's statement that '.cc', '.cpp' and '.cxx' all map to
the same C++ preprocessed-output tag. -/
theorem file_types_cxx_typo :
    List.lookup ".cxx" FILE_TYPES = some "c++-cpp-outout" ∧
    List.lookup ".cc" FILE_TYPES = some "c++-cpp-output" ∧
    List.lookup ".cpp" FILE_TYPES = some "c++-cpp-output" ∧
    List.lookup ".cxx" FILE_TYPES ≠ List.lookup ".cc" FILE_TYPES := by
  decide

lemma mainCompile_trace (env : Env) (inv : Invocation) (pp : List Nat)
    (key : Option String) (ev : List Event) :
    (mainCompile env inv pp key ev).1 =
      ev ++ [Event.compile (compileArgv inv)] ∨
    ∃ o k2 d, (mainCompile env inv pp key ev).1 =
      ev ++ [Event.compile (compileArgv inv), Event.spawnStore o k2 d] := by
  by_cases hc : env.compileRet (compileArgv inv) pp ≠ 0 ∨
      env.outputExists inv.output = false
  · left
    simp [mainCompile, hc]
  · rcases key with _ | k2
    · left
      simp [mainCompile, hc]
    · right
      exact ⟨inv.output, k2, do_store env inv.output k2, by simp [mainCompile, hc]⟩

/-- C2: on a blob-store hit, the compiler's code-generation step is never
invoked: the trace contains no compile event, the cached bytes are
decompressed and written to the output path, and main returns 0. -/
theorem hit_skips_compile (env : Env) (command : List String) (k : String)
    (hhit : Event.hit k ∈ (main env command).1) :
    (main env command).2 = .ok 0 ∧
    (∀ a, Event.compile a ∉ (main env command).1) ∧
    (∃ o b, Event.dump o b ∈ (main env command).1) := by
  rcases command with _ | ⟨prog, args⟩
  · simp [main] at hhit
  · rcases hp : parse_arguments env.resolve (prog :: args) with e | invOpt
    · simp [main, hp] at hhit
    · rcases invOpt with _ | inv
      · simp [main, hp] at hhit
      · rcases hpp : env.ppResult (ppArgv inv) with ret | pp
        · simp [main, hp, hpp] at hhit
        · simp only [main, hp, hpp] at hhit ⊢
          by_cases hpe : pp = []
          · simp only [mainAfterPp, if_pos hpe] at hhit
            rcases mainCompile_trace env inv pp none
                [Event.preprocess (ppArgv inv)] with htr | ⟨o, k2, d, htr⟩ <;>
              rw [htr] at hhit <;> simp at hhit
          · simp only [mainAfterPp, if_neg hpe] at hhit ⊢
            by_cases hrc : env.recache = false
            · simp only [if_pos hrc] at hhit ⊢
              rcases hbg : bucketGet env.bucketName env.getData
                  (hash_key env.sha1hex (env.mtimeStr inv.program)
                    (env.sizeStr inv.program) inv.program inv.args pp)
                  with _ | d
              · simp only [hbg] at hhit
                rcases mainCompile_trace env inv pp
                    (some (hash_key env.sha1hex (env.mtimeStr inv.program)
                      (env.sizeStr inv.program) inv.program inv.args pp))
                    ([Event.preprocess (ppArgv inv)] ++
                      [Event.hashKey (hash_key env.sha1hex (env.mtimeStr inv.program)
                        (env.sizeStr inv.program) inv.program inv.args pp),
                       Event.lookup (hash_key env.sha1hex (env.mtimeStr inv.program)
                        (env.sizeStr inv.program) inv.program inv.args pp)])
                    with htr | ⟨o, k2, d, htr⟩ <;>
                  rw [htr] at hhit <;> simp at hhit
              · simp only [hbg]
                refine ⟨?_, ?_, ⟨inv.output, gzipDecompress d, ?_⟩⟩ <;> simp
            · simp only [if_neg hrc] at hhit
              rcases mainCompile_trace env inv pp
                  (some (hash_key env.sha1hex (env.mtimeStr inv.program)
                    (env.sizeStr inv.program) inv.program inv.args pp))
                  ([Event.preprocess (ppArgv inv)] ++
                    [Event.hashKey (hash_key env.sha1hex (env.mtimeStr inv.program)
                      (env.sizeStr inv.program) inv.program inv.args pp)])
                  with htr | ⟨o, k2, d, htr⟩ <;>
                rw [htr] at hhit <;> simp at hhit

/-- Witness for `hit_skips_compile` on a concrete hitting run. -/
theorem hit_skips_compile_witness :
    (main envHit ["cc", "-c", "a.c", "-o", "a.o"]).2 = .ok 0 ∧
    (∀ a, Event.compile a ∉ (main envHit ["cc", "-c", "a.c", "-o", "a.o"]).1) ∧
    (∃ o b, Event.dump o b ∈ (main envHit ["cc", "-c", "a.c", "-o", "a.o"]).1) :=
  hit_skips_compile envHit ["cc", "-c", "a.c", "-o", "a.o"]
    "0/1/2/0123456789abcdef0123456789abcdef01234567" (by decide)

/-- C9: when preprocessing succeeds with empty output, the hash and lookup
steps are skipped entirely, and a subsequently successful compilation makes
main raise NameError (the variable key was never bound) instead of
returning 0. -/
theorem empty_pp_name_error (env : Env) (prog : String) (args : List String)
    (inv : Invocation)
    (hparse : parse_arguments env.resolve (prog :: args) = .ok (some inv))
    (hpp : env.ppResult (ppArgv inv) = .ok [])
    (hret : env.compileRet (compileArgv inv) [] = 0)
    (hout : env.outputExists inv.output = true) :
    (main env (prog :: args)).2 = .error .nameError ∧
    (∀ k, Event.hashKey k ∉ (main env (prog :: args)).1) ∧
    (∀ k, Event.lookup k ∉ (main env (prog :: args)).1) := by
  simp only [main, hparse, hpp, mainAfterPp, mainCompile, hret, hout]
  simp

/-- Witness for `empty_pp_name_error` on a concrete run. -/
theorem empty_pp_name_error_witness :
    (main envEmptyPp ["cc", "-c", "a.c", "-o", "a.o"]).2 = .error .nameError ∧
    (∀ k, Event.hashKey k ∉
      (main envEmptyPp ["cc", "-c", "a.c", "-o", "a.o"]).1) ∧
    (∀ k, Event.lookup k ∉
      (main envEmptyPp ["cc", "-c", "a.c", "-o", "a.o"]).1) :=
  empty_pp_name_error envEmptyPp "cc" ["-c", "a.c", "-o", "a.o"] invA
    (by decide) rfl rfl rfl

/-- C3 counterexample: a run in which compilation exits 0 and the output
file exists, yet main does not return 0 — the preprocessed bytes were empty,
so the store step's reference to the unbound variable key raises NameError
before any store can happen. -/
theorem store_exit_cex :
    envEmptyPp.compileRet (compileArgv invB) [] = 0 ∧
    envEmptyPp.outputExists "b.o" = true ∧
    (main envEmptyPp ["cc", "-c", "b.c", "-o", "b.o"]).2 = .error .nameError ∧
    (main envEmptyPp ["cc", "-c", "b.c", "-o", "b.o"]).2 ≠ .ok 0 := by
  refine ⟨rfl, rfl, by decide, by decide⟩

/-- C3 (amended): in every run whose preprocessed bytes are nonempty, if
compilation exits 0 and the declared output file exists, main returns 0
regardless of the store network's behaviour — including the
no-store-configured case, since the bucket name is unconstrained here. -/
theorem store_failure_preserves_exit (env : Env) (prog : String)
    (args : List String) (inv : Invocation) (pp : List Nat)
    (hparse : parse_arguments env.resolve (prog :: args) = .ok (some inv))
    (hpp : env.ppResult (ppArgv inv) = .ok pp)
    (hne : pp ≠ [])
    (hmiss : env.recache = true ∨
      bucketGet env.bucketName env.getData
        (hash_key env.sha1hex (env.mtimeStr inv.program)
          (env.sizeStr inv.program) inv.program inv.args pp) = none)
    (hret : env.compileRet (compileArgv inv) pp = 0)
    (hout : env.outputExists inv.output = true) :
    ∀ np : String → List Nat → Except Int Unit,
      (main { env with netPut := np } (prog :: args)).2 = .ok 0 := by
  intro np
  rcases hmiss with hrc | hbg
  · simp only [main, hparse, hpp, mainAfterPp, mainCompile, if_neg hne,
      hrc, hret, hout]
    simp
  · by_cases hrc : env.recache = false
    · simp only [main, hparse, hpp, mainAfterPp, mainCompile, if_neg hne,
        hrc, hbg, hret, hout]
      simp
    · simp only [main, hparse, hpp, mainAfterPp, mainCompile, if_neg hne,
        hret, hout]
      simp [hrc]

/-- Witness for `store_failure_preserves_exit`: the store network rejects
every put (and no bucket is configured), yet the exit status is 0. -/
theorem store_failure_preserves_exit_witness :
    (main { baseEnv with netPut := fun _ _ => .error 403 }
      ["cc", "-c", "a.c", "-o", "a.o"]).2 = .ok 0 :=
  store_failure_preserves_exit baseEnv "cc" ["-c", "a.c", "-o", "a.o"] invA
    [104, 105] (by decide) rfl (by decide) (Or.inr rfl) rfl rfl
    (fun _ _ => .error 403)

/-- C4 counterexample: two commands violating the claim as stated — the
command cc -o lacks -c but parse_arguments raises StopIteration instead of
returning classification failure (so the original command is never
executed), and the command cc -c a.c -o -fprofile-use contains
-fprofile-use yet classification succeeds (the flag is consumed as -o's
value). -/
theorem reject_passthrough_cex :
    ("-c" ∉ (["-o"] : List String)) ∧
    parse_arguments baseEnv.resolve ["cc", "-o"] ≠ .ok none ∧
    (main baseEnv ["cc", "-o"]).1 = [] ∧
    ("-fprofile-use" ∈ (["-c", "a.c", "-o", "-fprofile-use"] : List String)) ∧
    parse_arguments baseEnv.resolve ["cc", "-c", "a.c", "-o", "-fprofile-use"] =
      .ok (some { program := "cc", input := "a.c", fileType := "cpp-output",
                  output := "-fprofile-use",
                  args := ["-c", "a.c", "-o", "-fprofile-use"],
                  mt := [], reducedArgs := [] }) := by
  refine ⟨by decide, by decide, by decide, by decide, by decide⟩

/-- C4 (amended): for any command whose program resolves and whose argument
scan completes without StopIteration, if the scan encountered -fprofile-use
as a flag, or the command lacks -c, lacks -o, collected zero or more than
one bare input, its single input is the stdin sentinel, or its input's
extension is unrecognized, then parse_arguments returns classification
failure and main executes the original command unmodified, returning that
subprocess's exit code. -/
theorem reject_passthrough (env : Env) (prog : String) (args : List String)
    (prog' : String)
    (hres : env.resolve prog = some prog')
    (hcond : scanArgs args initScan = .profileReject ∨
      ∃ st, scanArgs args initScan = .done st ∧
        ("-c" ∉ args ∨ "-o" ∉ args ∨ st.input.length ≠ 1 ∨
         st.input = ["-"] ∨
         ∀ x, st.input = [x] →
           List.lookup (splitextExt x) FILE_TYPES = none)) :
    parse_arguments env.resolve (prog :: args) = .ok none ∧
    main env (prog :: args) =
      ([Event.execOrig (prog :: args)], .ok env.callRet) := by
  have hp : parse_arguments env.resolve (prog :: args) = .ok none := by
    rcases hcond with hpr | ⟨st, hdone, hc⟩
    · simp [parse_arguments, hres, hpr]
    · simp only [parse_arguments, hres, hdone]
      rcases hc with hc | hc | hc | hc | hc
      · have hcomp : st.compilation = false := by
          have := scan_no_c args initScan st hdone hc
          simpa [initScan] using this
        rcases hsi : st.input with _ | ⟨x, _ | _⟩ <;> simp [hsi, hcomp]
      · have hout : st.output = none := by
          have := scan_no_o args initScan st hdone hc
          simpa [initScan] using this
        rcases hsi : st.input with _ | ⟨x, _ | _⟩ <;> simp [hsi, hout, pyFalsy]
      · rcases hsi : st.input with _ | ⟨x, _ | _⟩ <;> simp_all
      · rcases hsi : st.input with _ | ⟨x, _ | _⟩ <;> simp_all
      · rcases hsi : st.input with _ | ⟨x, _ | _⟩
        · simp [hsi]
        · have hlk := hc x hsi
          by_cases hif : st.compilation = false ∨ pyFalsy st.output = true ∨
              x = "-"
          · simp [hsi, hif]
          · simp [hsi, hif, hlk]
        · simp [hsi]
  refine ⟨hp, ?_⟩
  simp [main, hp]

/-- Witness for `reject_passthrough`: the bare command cc (no arguments at
all, hence lacking -c) is rejected and executed via passthrough. -/
theorem reject_passthrough_witness :
    parse_arguments baseEnv.resolve ["cc"] = .ok none ∧
    main baseEnv ["cc"] = ([Event.execOrig ["cc"]], .ok baseEnv.callRet) :=
  reject_passthrough baseEnv "cc" [] "cc" rfl
    (Or.inr ⟨initScan, rfl, Or.inl (by decide)⟩)

/-- C10 counterexample: the command cc -I -o has the value-consuming flag
-o as its last token, yet parse_arguments does not raise StopIteration —
the -o is consumed as -I's value, the scan completes, classification fails
normally and the passthrough executes. -/
theorem trailing_flag_cex :
    "-o" ∈ VALUE_CONSUMING ∧
    parse_arguments baseEnv.resolve ["cc", "-I", "-o"] = .ok none ∧
    main baseEnv ["cc", "-I", "-o"] =
      ([Event.execOrig ["cc", "-I", "-o"]], .ok 7) := by
  refine ⟨by decide, by decide, by decide⟩

/-- C10 (amended): if a value-consuming flag (-o, -MT, or any flag of the
fixed two-token set) is the last token of the argument list and the scan
reaches it as a flag (it is not consumed as the value of an earlier flag),
parse_arguments raises StopIteration rather than returning classification
failure, and main propagates it: the command is neither classified nor
executed via passthrough. -/
theorem trailing_flag_stop (env : Env) (prog : String) (pre : List String)
    (f : String) (prog' : String) (st : ScanState)
    (hres : env.resolve prog = some prog')
    (hscan : scanArgs pre initScan = .done st)
    (hf : f ∈ VALUE_CONSUMING) :
    parse_arguments env.resolve (prog :: (pre ++ [f])) =
      .error .stopIteration ∧
    main env (prog :: (pre ++ [f])) = ([], .error .stopIteration) := by
  have hstep : scanArgs (pre ++ [f]) initScan = .stop := by
    rw [scanArgs_append pre initScan st [f] hscan]
    simp only [VALUE_CONSUMING, List.mem_cons] at hf
    rcases hf with rfl | rfl | hf2
    · rw [scanArgs.eq_def]
      simp
    · rw [scanArgs.eq_def]
      simp [TWO_TOKEN_ARGS]
    · have h1 : f ≠ "-c" := by
        rintro rfl
        revert hf2
        decide
      have h2 : f ≠ "-o" := by
        rintro rfl
        revert hf2
        decide
      rw [scanArgs.eq_def]
      simp [h1, h2, hf2]
  have hp : parse_arguments env.resolve (prog :: (pre ++ [f])) =
      .error .stopIteration := by
    simp [parse_arguments, hres, hstep]
  exact ⟨hp, by simp [main, hp]⟩

/-- Witness for `trailing_flag_stop`: cc -o crashes with StopIteration. -/
theorem trailing_flag_stop_witness :
    parse_arguments baseEnv.resolve ["cc", "-o"] = .error .stopIteration ∧
    main baseEnv ["cc", "-o"] = ([], .error .stopIteration) :=
  trailing_flag_stop baseEnv "cc" [] "-o" "cc" initScan rfl rfl (by decide)

lemma compile_event_argv (env : Env) (cmd : List String) (argv : List String)
    (h : Event.compile argv ∈ (main env cmd).1) :
    ∃ inv, parse_arguments env.resolve cmd = .ok (some inv) ∧
      argv = compileArgv inv ∧
      Event.preprocess (ppArgv inv) ∈ (main env cmd).1 := by
  rcases cmd with _ | ⟨prog, args⟩
  · simp [main] at h
  · rcases hp : parse_arguments env.resolve (prog :: args) with e | invOpt
    · simp [main, hp] at h
    · rcases invOpt with _ | inv
      · simp [main, hp] at h
      · refine ⟨inv, rfl, ?_⟩
        rcases hpp : env.ppResult (ppArgv inv) with ret | pp
        · simp [main, hp, hpp] at h
        · simp only [main, hp, hpp] at h ⊢
          by_cases hpe : pp = []
          · simp only [mainAfterPp, if_pos hpe] at h ⊢
            rcases mainCompile_trace env inv pp none
                [Event.preprocess (ppArgv inv)] with htr | ⟨o, k2, d, htr⟩ <;>
              rw [htr] at h ⊢ <;> simp_all
          · simp only [mainAfterPp, if_neg hpe] at h ⊢
            by_cases hrc : env.recache = false
            · simp only [if_pos hrc] at h ⊢
              rcases hbg : bucketGet env.bucketName env.getData
                  (hash_key env.sha1hex (env.mtimeStr inv.program)
                    (env.sizeStr inv.program) inv.program inv.args pp)
                  with _ | d
              · simp only [hbg] at h ⊢
                rcases mainCompile_trace env inv pp
                    (some (hash_key env.sha1hex (env.mtimeStr inv.program)
                      (env.sizeStr inv.program) inv.program inv.args pp))
                    ([Event.preprocess (ppArgv inv)] ++
                      [Event.hashKey (hash_key env.sha1hex
                        (env.mtimeStr inv.program) (env.sizeStr inv.program)
                        inv.program inv.args pp),
                       Event.lookup (hash_key env.sha1hex
                        (env.mtimeStr inv.program) (env.sizeStr inv.program)
                        inv.program inv.args pp)])
                    with htr | ⟨o, k2, d, htr⟩ <;>
                  rw [htr] at h ⊢ <;> simp_all
              · simp only [hbg] at h ⊢
                simp at h
            · simp only [if_neg hrc] at h ⊢
              rcases mainCompile_trace env inv pp
                  (some (hash_key env.sha1hex (env.mtimeStr inv.program)
                    (env.sizeStr inv.program) inv.program inv.args pp))
                  ([Event.preprocess (ppArgv inv)] ++
                    [Event.hashKey (hash_key env.sha1hex
                      (env.mtimeStr inv.program) (env.sizeStr inv.program)
                      inv.program inv.args pp)])
                  with htr | ⟨o, k2, d, htr⟩ <;>
                rw [htr] at h ⊢ <;> simp_all

/-- C5: when a dependency flag required an explicit target and none was
given via -MT, the synthesized pair is -MT followed by the output path; the
final compile invocation's argument list is exactly the fixed compile flags
plus the reduced arguments — it never contains the synthesized -MT pair —
while the preprocessing invocation's argument list does contain it. -/
theorem mt_only_in_preprocess (env : Env) (prog : String)
    (args : List String) (prog' : String) (st : ScanState)
    (inv : Invocation) (argv : List String)
    (hres : env.resolve prog = some prog')
    (hscan : scanArgs args initScan = .done st)
    (hneed : st.needExplicitTarget = true)
    (htgt : st.target = none)
    (hparse : parse_arguments env.resolve (prog :: args) = .ok (some inv))
    (hcomp : Event.compile argv ∈ (main env (prog :: args)).1) :
    inv.mt = ["-MT", inv.output] ∧
    argv = [inv.program, "-c", "-x", inv.fileType, "-", "-o", inv.output] ++
      inv.reducedArgs ∧
    Event.preprocess ([inv.program, "-E", inv.input] ++ inv.mt ++
      inv.reducedArgs) ∈ (main env (prog :: args)).1 := by
  obtain ⟨inv2, hp2, hargv, hpre⟩ :=
    compile_event_argv env (prog :: args) argv hcomp
  rw [hparse] at hp2
  have hinv : inv2 = inv := by
    injection hp2 with hp3
    injection hp3 with hp4
    exact hp4.symm
  subst hinv
  have hmt : inv2.mt = ["-MT", inv2.output] := by
    simp only [parse_arguments, hres, hscan] at hparse
    rcases hsi : st.input with _ | ⟨x, _ | _⟩ <;> rw [hsi] at hparse <;>
      simp only [] at hparse
    · simp at hparse
    · split_ifs at hparse with hif
      · simp at hparse
      · rcases hlk : List.lookup (splitextExt x) FILE_TYPES with _ | ft <;>
          rw [hlk] at hparse <;> simp at hparse
        rw [← hparse]
        simp [hneed, htgt, pyOrStr]
    · simp at hparse
  exact ⟨hmt, by simpa [compileArgv] using hargv,
    by simpa [ppArgv] using hpre⟩

/-- Witness for `mt_only_in_preprocess` on the concrete run
cc -M a.c -c -o a.o against a missing cache. -/
theorem mt_only_in_preprocess_witness :
    invMT.mt = ["-MT", invMT.output] ∧
    compileArgv invMT =
      [invMT.program, "-c", "-x", invMT.fileType, "-", "-o", invMT.output] ++
        invMT.reducedArgs ∧
    Event.preprocess ([invMT.program, "-E", invMT.input] ++ invMT.mt ++
      invMT.reducedArgs) ∈
      (main envMissFail ["cc", "-M", "a.c", "-c", "-o", "a.o"]).1 :=
  mt_only_in_preprocess envMissFail "cc" ["-M", "a.c", "-c", "-o", "a.o"]
    "cc" ⟨["-M"], ["a.c"], some "a.o", none, true, true⟩ invMT
    (compileArgv invMT) rfl (by decide) rfl rfl (by decide) (by decide)

end Sccache
